import Mathlib

/-!
Verification of the hera dual-protocol packet codec and command processor.

Shallow embedding of the packet codec (`utility/encoding/netstring/netstring.go`,
`utility/encoding/mysqlpackets/mysqlpackets.go`, `utility/encoding` Packet type)
and of selected command paths of the session command processor
(`worker/shared/cmdprocessor.go`) of the hera repository, together with proofs
about the claims of the specification.

Modelling conventions:
* A byte is a `Nat` (value `0..255`); a byte stream (`io.Reader`) is a
  `List Nat` of the bytes still unread, and reading is explicit state passing:
  a decode function takes the stream and also returns the remainder of the
  *underlying* stream after the call.
* Reads are *greedy*, as for Go's `bytes.Reader`/`strings.Reader` (the readers
  the repository's own tests feed these functions): a `Read` into a buffer of
  `n` bytes returns `min n remaining` bytes, and returns `io.EOF` only when
  the stream is already empty.
* `NewNetstring` wraps its reader in `bufio.NewReader` (buffer size 4096).
  The first `ReadByte` fills that buffer with `min 4096 remaining` bytes from
  the underlying reader; all parsing then consumes from the buffer, and the
  buffer is discarded when the function returns.  The model therefore reports
  as "remaining underlying stream" everything past
  `max parsed (min 4096 length)`.  (For a netstring larger than the 4096-byte
  buffer the final buffer refill may discard up to 4095 further bytes; the
  model returns the minimal consumption in that case, which no claim relies
  on.)
* Go `int` values that are always non-negative in the modelled paths
  (lengths, commands, sequence ids) are `Nat`; where the code writes a byte
  of an int the model takes `% 256` etc. explicitly.
* A Go runtime panic (out-of-range slice index, nil-map dereference) is an
  explicit error/outcome constructor, since a panic is observable and aborts
  the function.
-/

namespace Hera

/-- The `encoding.Packet` struct: the unified in-memory representation of one
protocol message (fields `Cmd`, `Serialized`, `Payload`, `Sqid`, `Length`,
`IsMySQL`). -/
structure EPacket where
  Cmd : Nat
  Serialized : List Nat
  Payload : List Nat
  Sqid : Nat
  Length : Nat
  IsMySQL : Bool
deriving Repr, DecidableEq

/-- Errors of the codec layer.  `WRONGPACKET`/`UNKNOWNPACKET` are the
`encoding.WRONGPACKET`/`encoding.UNKNOWNPACKET` values; `eofErr` is Go's
`io.EOF`; `expectedDigitLength`/`expectedDigitCommand` are the two
`errors.New` values of the netstring decoder; `shortRead` is the
"Expected %d bytes" error of the MySQL decoder; `outOfRange` models the Go
runtime panic on an out-of-range slice index. -/
inductive EncErr where
  | WRONGPACKET
  | UNKNOWNPACKET
  | eofErr
  | expectedDigitLength
  | expectedDigitCommand
  | shortRead
  | outOfRange
  | fuelExhausted
deriving Repr, DecidableEq

/-- Decidable equality for `Except`, so that the model can be evaluated on
concrete inputs. -/
instance {ε α : Type} [DecidableEq ε] [DecidableEq α] : DecidableEq (Except ε α) := fun a b =>
  match a, b with
  | .ok x, .ok y =>
    if h : x = y then isTrue (by rw [h])
    else isFalse (by intro hc; cases hc; exact h rfl)
  | .error x, .error y =>
    if h : x = y then isTrue (by rw [h])
    else isFalse (by intro hc; cases hc; exact h rfl)
  | .ok _, .error _ => isFalse (by intro hc; cases hc)
  | .error _, .ok _ => isFalse (by intro hc; cases hc)

/-- `MAX_PACKET_SIZE` of package mysqlpackets: `(1 << 24) - 1`. -/
def MAX_PACKET_SIZE : Nat := 2 ^ 24 - 1

/-- Size of the buffer allocated by `bufio.NewReader` inside `NewNetstring`. -/
def bufSize : Nat := 4096

/-! ## Decimal digit strings

`fmt.Sprintf("%d", n)` for a non-negative `n`, as the list of ASCII digit
byte values.  Defined with explicit fuel so that the kernel can evaluate it
(`n` digits, so fuel `n + 1` always suffices). -/

/-- Auxiliary for `natToDigitBytes`: first argument is fuel. -/
def natDigitsAux : Nat → Nat → List Nat
  | 0, _ => []
  | fuel + 1, n => if n < 10 then [48 + n] else natDigitsAux fuel (n / 10) ++ [48 + n % 10]

/-- The decimal representation of `n` in ASCII byte values, as produced by
`fmt.Sprintf("%d", n)` for `n ≥ 0`. -/
def natToDigitBytes (n : Nat) : List Nat := natDigitsAux (n + 1) n

/-- The value accumulated by the decoder's digit loops over a digit list. -/
def digitsVal (acc : Nat) (ds : List Nat) : Nat :=
  ds.foldl (fun a b => a * 10 + (b - 48)) acc

/-! ## The netstring decoder (`NewNetstring`, netstring.go lines 108-187) -/

/-- The length-reading loop of `NewNetstring` (netstring.go lines 137-153):
read one byte at a time into `buff` until a colon (58); anything that is not
an ASCII digit fails with "Expected digit reading length".  (Go computes
`int(b - '0')` on a `byte`, which wraps modulo 256, so the test
`digit < 0 || digit > 9` is equivalent to `b < 48 ∨ b > 57`.)  Returns the
accumulated length, `buff` including the colon, and the unread remainder. -/
def readLen : List Nat → Nat → List Nat → Except EncErr (Nat × List Nat × List Nat)
  | [], _, _ => .error .eofErr
  | b :: s, len, buff =>
    if b = 58 then .ok (len, buff ++ [b], s)
    else if 48 ≤ b ∧ b ≤ 57 then readLen s (len * 10 + (b - 48)) (buff ++ [b])
    else .error .expectedDigitLength

/-- The command-reading loop of `NewNetstring` (netstring.go lines 169-182),
run over the bytes of `Serialized` at positions `buff.length + 1 .. totalLen`
(that is: command digits, optionally a space and then the payload).  On a
space (32) it stops, and the remainder is the payload; digits accumulate into
`Cmd`; any other byte fails with "Expected digit reading command". -/
def readCmdLoop : List Nat → Nat → Except EncErr (Nat × List Nat)
  | [], cmd => .ok (cmd, [])
  | b :: s, cmd =>
    if b = 32 then .ok (cmd, s)
    else if 48 ≤ b ∧ b ≤ 57 then readCmdLoop s (cmd * 10 + (b - 48))
    else .error .expectedDigitCommand

/-- `NewNetstring` (netstring.go lines 108-187).  Reads the indicator byte
(1 = netstring; 0 fails with `WRONGPACKET`, anything else with
`UNKNOWNPACKET`), the decimal length, and then `length + 1` further bytes
(command, space, payload, trailing comma), greedily; the payload-read loop
exits as soon as `length` of those bytes have arrived, so a stream that is
exactly one byte short still succeeds with a zero byte in place of the comma.
`ns.Length` is never assigned and stays `0`.

The function wraps the reader in a `bufio.NewReader` whose buffer it
discards on return, so the second component (the remaining *underlying*
stream) drops `max parsed (min bufSize length)` bytes on the paths that got
as far as the initial `ReadByte`. -/
def NewNetstring (s : List Nat) : Except EncErr EPacket × List Nat :=
  let rest0 := s.drop (min bufSize s.length)
  match s with
  | [] => (.error .eofErr, [])
  | ttp :: s1 =>
    if ttp ≠ 1 then
      if ttp = 0 then (.error .WRONGPACKET, rest0) else (.error .UNKNOWNPACKET, rest0)
    else
      match readLen s1 0 [] with
      | .error e => (.error e, rest0)
      | .ok (length, buff, s2) =>
        if s2.length < length then (.error .eofErr, [])
        else
          let consumed := min (length + 1) s2.length
          let body := s2.take consumed
          let serialized := 1 :: buff ++ body ++ (if s2.length = length then [0] else [])
          match readCmdLoop (s2.take length) 0 with
          | .error e => (.error e, rest0)
          | .ok (cmd, payload) =>
            (.ok { Cmd := cmd, Serialized := serialized, Payload := payload,
                   Sqid := 0, Length := 0, IsMySQL := false },
             s.drop (max (1 + buff.length + consumed) (min bufSize s.length)))

/-- `NewNetstringFrom` (netstring.go lines 190-211): builds
`"<len>:<cmd> <payload>,"` (or `"<len>:<cmd>,"` for an empty payload),
prefixed by the indicator byte 1.  `Payload` is the sub-slice
`Serialized[totalLen-payloadLen : totalLen]` when the payload is non-empty,
and stays nil otherwise; `Length` is never assigned. -/
def NewNetstringFrom (cmd : Nat) (payload : List Nat) : EPacket :=
  let cmdStr := natToDigitBytes cmd
  let byteStr :=
    if payload.length = 0 then
      natToDigitBytes cmdStr.length ++ [58] ++ cmdStr ++ [44]
    else
      natToDigitBytes (payload.length + cmdStr.length + 1) ++ [58]
        ++ cmdStr ++ [32] ++ payload ++ [44]
  let totalLen := byteStr.length
  { Cmd := cmd, IsMySQL := false, Serialized := 1 :: byteStr,
    Payload :=
      if payload.length = 0 then []
      else ((1 :: byteStr).drop (totalLen - payload.length)).take payload.length,
    Sqid := 0, Length := 0 }

/-- `NewNetstringEmbedded` (netstring.go lines 214-237): wraps the
concatenation of the serialized forms of `nss` into one netstring with the
reserved sub-command marker `"0 "`.  `Cmd` is never assigned and stays `0`
(which equals `CodeSubCommand - '0'`). -/
def NewNetstringEmbedded (nss : List EPacket) : EPacket :=
  let payloadLen := (nss.map (fun p => p.Serialized.length)).sum
  let lenStr := natToDigitBytes (payloadLen + 2) ++ [58]
  let totalLen := lenStr.length + payloadLen + 2 + 1
  let serialized := 1 :: lenStr ++ [48, 32] ++ (nss.map (fun p => p.Serialized)).flatten ++ [44]
  { Cmd := 0, Serialized := serialized,
    Payload := (serialized.drop (totalLen - payloadLen)).take payloadLen,
    Sqid := 0, Length := 0, IsMySQL := false }

/-- The loop of `SubNetstrings` (netstring.go lines 240-259): repeatedly call
`NewNetstring` on one shared `bytes.Reader` over the composite's payload;
stop cleanly on `io.EOF`, fail on any other error.  Fuel is an upper bound on
the number of iterations; `payload.length + 1` always suffices because every
successful `NewNetstring` call consumes at least one byte. -/
def subNsLoop : Nat → List Nat → List EPacket → Except EncErr (List EPacket)
  | 0, _, _ => .error .fuelExhausted
  | fuel + 1, s, acc =>
    match NewNetstring s with
    | (.error .eofErr, _) => .ok acc
    | (.error e, _) => .error e
    | (.ok ns, rest) => subNsLoop fuel rest (acc ++ [ns])

/-- `SubNetstrings` (netstring.go lines 240-259). -/
def SubNetstrings (ns : EPacket) : Except EncErr (List EPacket) :=
  subNsLoop (ns.Payload.length + 1) ns.Payload []

/-- The state of a netstring `Reader` (netstring.go lines 262-267): the
underlying stream, the look-ahead packet `ns`, the buffered sub-netstrings
`nss` and the index `next` of the first not-yet-served one. -/
structure NsReader where
  stream : List Nat
  ns : Option EPacket
  nss : List EPacket
  next : Nat
deriving Repr, DecidableEq

/-- `NewNetstringReader` (netstring.go lines 270-274). -/
def NewNetstringReader (s : List Nat) : NsReader :=
  { stream := s, ns := none, nss := [], next := 0 }

/-- `Reader.ReadNext` (netstring.go lines 278-305).  Serves the look-ahead
packet if present, then buffered sub-netstrings, then decodes from the
stream; a decoded packet with `Cmd = 0` (`CodeSubCommand - '0'`) is expanded
with `SubNetstrings` and the loop repeats.  If `SubNetstrings` fails the
look-ahead packet remains set, exactly as in the source.  Fuel bounds the
loop; `stream.length + 2` always suffices. -/
def nsReadNext : Nat → NsReader → Except EncErr EPacket × NsReader
  | 0, r => (.error .fuelExhausted, r)
  | fuel + 1, r =>
    match r.ns with
    | some p => (.ok p, { r with ns := none })
    | none =>
      if h : r.next < r.nss.length then
        (.ok (r.nss.get ⟨r.next, h⟩), { r with next := r.next + 1 })
      else
        match NewNetstring r.stream with
        | (.error e, rest) => (.error e, { r with stream := rest })
        | (.ok p, rest) =>
          if p.Cmd = 0 then
            match SubNetstrings p with
            | .error e => (.error e, { r with stream := rest, ns := some p })
            | .ok nss =>
              nsReadNext fuel { r with stream := rest, ns := none, nss := nss, next := 0 }
          else
            (.ok p, { r with stream := rest, ns := none })

/-! ## The MySQL packet codec (`mysqlpackets.go`) -/

/-- `WriteFixedLenInt(data, INT3, n, ...)`: the three little-endian bytes
`byte(n), byte(n >> 8), byte(n >> 16)`. -/
def le3 (n : Nat) : List Nat := [n % 256, n / 256 % 256, n / 65536 % 256]

/-- `NewMySQLPacket` (mysqlpackets.go lines 198-264).  Reads the indicator
byte directly from the reader (one-byte buffer; 0 = MySQL, 1 fails with
`WRONGPACKET`, anything else with `UNKNOWNPACKET`), then one 4-byte header
read (little-endian 3-byte payload length, 1-byte sequence id; the read
error is ignored, so a missing header is four zero bytes), then the payload.

On an empty stream both ignored reads leave zeroed buffers, the indicator
check passes, and - as for any packet with payload length 0 - the final
`ns.Serialized[HEADER_SIZE+1]` indexes past the 5-byte slice: a Go runtime
panic, modelled as `outOfRange`.  The check `bytesRead - 1 != totalLen`
(`shortRead`) cannot trigger under greedy reads and is omitted. -/
def NewMySQLPacket (s : List Nat) : Except EncErr EPacket × List Nat :=
  match s with
  | [] => (.error .outOfRange, [])
  | ptype :: s1 =>
    if ptype ≠ 0 then
      if ptype = 1 then (.error .WRONGPACKET, s1) else (.error .UNKNOWNPACKET, s1)
    else
      let tmp := s1.take 4 ++ List.replicate (4 - min 4 s1.length) 0
      let payload_length := tmp.getD 0 0 + 256 * tmp.getD 1 0 + 65536 * tmp.getD 2 0
      let sqid := tmp.getD 3 0
      let s2 := s1.drop 4
      if s2.length < payload_length then (.error .eofErr, [])
      else
        let serialized := 0 :: tmp ++ s2.take payload_length
        if payload_length = 0 then (.error .outOfRange, s2)
        else
          (.ok { Cmd := serialized.getD 5 0, Serialized := serialized,
                 Payload := s2.take payload_length, Sqid := sqid,
                 Length := payload_length, IsMySQL := true },
           s2.drop payload_length)

/-- `NewMySQLPacketFrom` (mysqlpackets.go lines 280-314): indicator byte 0,
3-byte little-endian payload length, 1 byte of the sequence id, then the
payload; `Cmd` is the first payload byte.  An empty payload returns the
zero-valued `encoding.Packet`. -/
def NewMySQLPacketFrom (sqid : Nat) (payload : List Nat) : EPacket :=
  if payload.length = 0 then
    { Cmd := 0, Serialized := [], Payload := [], Sqid := 0, Length := 0, IsMySQL := false }
  else
    { Cmd := payload.getD 0 0,
      Serialized := 0 :: le3 payload.length ++ [sqid % 256] ++ payload,
      Payload := payload, Sqid := sqid, Length := payload.length, IsMySQL := true }

/-- The loop of `Packager.WritePacket` (mysqlpackets.go lines 317-344):
split the payload into chunks of `min remaining MAX_PACKET_SIZE` bytes,
each packaged with `NewMySQLPacketFrom` at consecutive sequence ids.  The
in-loop guard `pidx > len(_payload)` can never trigger and is omitted.
Fuel bounds the iterations; `payload.length` suffices since every chunk is
non-empty. -/
def writePacketAux : Nat → Nat → List Nat → List EPacket
  | 0, _, _ => []
  | fuel + 1, sqid, payload =>
    if payload.length = 0 then []
    else
      NewMySQLPacketFrom sqid (payload.take (min payload.length MAX_PACKET_SIZE))
        :: writePacketAux fuel (sqid + 1) (payload.drop (min payload.length MAX_PACKET_SIZE))

/-- `Packager.WritePacket` (mysqlpackets.go lines 317-344), with the
packager's current `sqid` passed explicitly. -/
def WritePacket (sqid : Nat) (payload : List Nat) : List EPacket :=
  writePacketAux payload.length sqid payload

/-- `Packager.ReadNext` (mysqlpackets.go lines 357-367): decode exactly one
packet with `NewMySQLPacket` and record its sequence id in the packager.
The packager state is the pair (stream, sqid). -/
def PackagerReadNext (st : List Nat × Nat) : Except EncErr EPacket × (List Nat × Nat) :=
  match NewMySQLPacket st.1 with
  | (.error e, rest) => (.error e, (rest, st.2))
  | (.ok pkt, rest) => (.ok pkt, (rest, pkt.Sqid))

/-- `Packet.IsComposite` (package encoding): a MySQL packet is composite when
its declared length is `MAX_PACKET_SIZE`; a netstring is composite when its
command is `CodeSubCommand - '0' = 0`. -/
def IsComposite (ns : EPacket) : Bool :=
  if ns.IsMySQL then ns.Length = MAX_PACKET_SIZE else ns.Cmd = 0

/-! ## The session command processor (`worker/shared/cmdprocessor.go`)

Model of the netstring-protocol command paths the claims are about:
`CmdBindName`/`CmdBindOutName`, `CmdBindValue`, `CmdExecute` and
`CmdCommit`, plus the response helper `eor`.  Backend behaviour
(`sql.Tx.Commit` failing or not, the adapter's `UseBindNames`) enters as
explicit parameters. -/

/-- Protocol constants from `common/codes.go` and `common/internalcodes.go`. -/
def RcSQLError : Nat := 1

def RcOK : Nat := 5

def CmdEOR : Nat := 502

def EORFree : Nat := 0

def EORInTransaction : Nat := 1

def EORMoreIncomingRequests : Nat := 4

/-- `bindType` (cmdprocessor.go lines 58-65). -/
inductive BindType where
  | btUnknown
  | btIn
  | btOut
deriving Repr, DecidableEq

/-- The `value interface{}` stored in a `BindValue` slot by `CmdBindValue`
(cmdprocessor.go lines 653-678): an empty payload stores `sql.NullString{}`;
timestamp types store the `time.Date` built from the scanned payload (the
textual scan itself is kept abstract as the raw payload, no claim depends on
it); raw/blob store the payload bytes; everything else stores
`sql.NullString{String: payload, Valid: true}`. -/
inductive BindVal where
  | vUnset
  | vNullString
  | vString (s : List Nat)
  | vRaw (s : List Nat)
  | vTimestamp (raw : List Nat)
  | vTimestampTZ (raw : List Nat)
deriving Repr, DecidableEq

/-- `BindValue` (cmdprocessor.go lines 67-82). -/
structure BindValue where
  index : Nat
  name : List Nat
  value : BindVal
  valid : Bool
  btype : BindType
  dataType : Nat
deriving Repr, DecidableEq

/-- The bind-variable table `cp.bindVars` (a Go map keyed by name), modelled
as an association list. -/
def lookupBV (m : List (List Nat × BindValue)) (k : List Nat) : Option BindValue :=
  (m.find? (fun p => p.1 == k)).map (fun p => p.2)

/-- In-place update of one entry of the bind-variable table. -/
def updateBV (m : List (List Nat × BindValue)) (k : List Nat) (f : BindValue → BindValue) :
    List (List Nat × BindValue) :=
  m.map (fun p => if p.1 == k then (p.1, f p.2) else p)

/-- The per-session state of `CmdProcessor` relevant to the modelled
commands: `stmtPresent` is `cp.stmt != nil`, `txPresent` is `cp.tx != nil`,
the rest are the fields of the same name. -/
structure SessionSt where
  stmtPresent : Bool
  bindVars : List (List Nat × BindValue)
  bindPos : List (List Nat)
  currentBindName : List Nat
  numBindOuts : Nat
  inTrans : Bool
  txPresent : Bool
  rqId : Nat
deriving Repr, DecidableEq

/-- Errors assigned to `err` by the modelled command paths. -/
inductive CPErr where
  | bindNameNotFound (name : List Nat)
  | bindNameUndefined (name : List Nat)
  | outbindNotSupported
deriving Repr, DecidableEq

/-- The bind name derived from the payload of `CmdBindName`/`CmdBindOutName`
(cmdprocessor.go lines 602-610): the payload itself if it already starts
with a colon (byte 58), otherwise the payload with a colon prepended. -/
def deriveBindName (payload : List Nat) : List Nat :=
  if payload.head? = some 58 then payload else 58 :: payload

/-- The `CmdBindName`/`CmdBindOutName` case of `ProcessCmd`
(cmdprocessor.go lines 600-630).  `isOut` selects `CmdBindOutName`.
`cp.currentBindName` is assigned *before* the existence check; a name absent
from `cp.bindVars` sets `err` and breaks without touching any slot;
otherwise the slot's `btype` (and for out-binds `valid` and `numBindOuts`)
and `dataType = DataTypeString` are set.  With no prepared statement the
whole case is skipped. -/
def processBindName (st : SessionSt) (payload : List Nat) (isOut : Bool) :
    SessionSt × Option CPErr :=
  if st.stmtPresent then
    let cbn := deriveBindName payload
    let st1 := { st with currentBindName := cbn }
    match lookupBV st1.bindVars cbn with
    | none => (st1, some (.bindNameNotFound cbn))
    | some _ =>
      if isOut then
        ({ st1 with
            bindVars := updateBV st1.bindVars cbn
              (fun b => { b with btype := .btOut, valid := true, dataType := 0 }),
            numBindOuts := st1.numBindOuts + 1 }, none)
      else
        ({ st1 with
            bindVars := updateBV st1.bindVars cbn
              (fun b => { b with btype := .btIn, dataType := 0 }) }, none)
  else (st, none)

/-- The value computed by `CmdBindValue` for a slot of the given `dataType`
(`DataTypeTimestamp = 6`, `DataTypeTimestampTZ = 7`, `DataTypeRaw = 3`,
`DataTypeBlob = 4`). -/
def bindValOf (dataType : Nat) (payload : List Nat) : BindVal :=
  if payload.length = 0 then .vNullString
  else if dataType = 6 then .vTimestamp payload
  else if dataType = 7 then .vTimestampTZ payload
  else if dataType = 3 ∨ dataType = 4 then .vRaw payload
  else .vString payload

/-- The `CmdBindValue` case of `ProcessCmd` (cmdprocessor.go lines 641-681):
looking up `cp.currentBindName`; an absent name sets `err` and breaks
without touching any slot; otherwise the slot's value is set per its
declared type and `valid` becomes true. -/
def processBindValue (st : SessionSt) (payload : List Nat) : SessionSt × Option CPErr :=
  if st.stmtPresent then
    match lookupBV st.bindVars st.currentBindName with
    | none => (st, some (.bindNameNotFound st.currentBindName))
    | some bv =>
      ({ st with
          bindVars := updateBV st.bindVars st.currentBindName
            (fun b => { b with value := bindValOf bv.dataType payload, valid := true }) },
       none)
  else (st, none)

/-- One argument of the backend call built by `CmdExecute`:
`sql.Named(key[1:], val.value)`, a positional `val.value`, or
`sql.Named(key[1:], sql.Out{Dest: &cp.bindOuts[curbindout]})`. -/
inductive BindArg where
  | named (name : List Nat) (v : BindVal)
  | positional (v : BindVal)
  | outArg (name : List Nat) (slot : Nat)
deriving Repr, DecidableEq

/-- Outcome of the `CmdExecute` case up to and including the backend call
decision: either the backend statement is invoked with the built `bindinput`,
or `err` was set and the dispatch broke out (`failed`), or a name of
`cp.bindPos` is missing from `cp.bindVars` (a nil-pointer dereference at
`val.btype`, i.e. a Go panic), or there was no prepared statement and an
`RcSQLError` response is sent without any backend call. -/
inductive ExecOutcome where
  | backendCall (args : List BindArg)
  | failed (e : CPErr)
  | nilDeref
  | noStmtErrorResponse
deriving Repr, DecidableEq

/-- The placeholder walk of the `CmdExecute` case (cmdprocessor.go lines
704-730): step through `cp.bindPos` in order; an input slot must have
`valid = true` or `err = "bindname undefined"` breaks the dispatch; an
output slot is passed as an out-bind when the adapter uses bind names and
fails with "outbind not supported" otherwise; `btUnknown` slots are
skipped. -/
def execWalk (useBindNames : Bool) (bindVars : List (List Nat × BindValue)) :
    List (List Nat) → List BindArg → Nat → ExecOutcome
  | [], acc, _ => .backendCall acc
  | key :: rest, acc, curbindout =>
    match lookupBV bindVars key with
    | none => .nilDeref
    | some val =>
      if val.btype = .btIn then
        if !val.valid then .failed (.bindNameUndefined key)
        else
          execWalk useBindNames bindVars rest
            (acc ++ [if useBindNames then .named (key.drop 1) val.value
                     else .positional val.value]) curbindout
      else if val.btype = .btOut then
        if useBindNames then
          execWalk useBindNames bindVars rest
            (acc ++ [.outArg (key.drop 1) curbindout]) (curbindout + 1)
        else .failed .outbindNotSupported
      else execWalk useBindNames bindVars rest acc curbindout

/-- The `CmdExecute` case of `ProcessCmd` (cmdprocessor.go lines 688-730) up
to the backend invocation: with a prepared statement the placeholder walk
decides whether `stmt.Query`/`stmt.Exec` is reached; without one an error
response is emitted instead. -/
def processExecute (st : SessionSt) (useBindNames : Bool) : ExecOutcome :=
  if st.stmtPresent then execWalk useBindNames st.bindVars st.bindPos [] 0
  else .noStmtErrorResponse

/-- The payload built by `eor` (cmdprocessor.go lines 1110-1130): the byte
`'0' + code`, the two bytes of `rqId`, then the serialized response packet
(if any). -/
def eorPayload (code rqId : Nat) (inner : Option EPacket) : List Nat :=
  match inner with
  | some p => (48 + code) :: (rqId / 256 % 256) :: (rqId % 256) :: p.Serialized
  | none => [48 + code, rqId / 256 % 256, rqId % 256]

/-- `eor` (cmdprocessor.go lines 1110-1130): an `EORFree` code is replaced by
`EORMoreIncomingRequests` when `cp.moreIncomingRequests()` reports pipelined
requests; the result is wrapped in a `CmdEOR` netstring. -/
def eor (moreIncoming : Bool) (rqId code : Nat) (inner : Option EPacket) : EPacket :=
  let code := if code = EORFree ∧ moreIncoming then EORMoreIncomingRequests else code
  NewNetstringFrom CmdEOR (eorPayload code rqId inner)

/-- What the `CmdCommit` case produces: the updated transaction facet of the
session, the packet written to the mux, whether the "Commit issued without a
transaction" warning was logged, and whether `ProcessCmd` returns a nil
error from this branch. -/
structure CommitOutcome where
  inTrans : Bool
  txPresent : Bool
  emitted : EPacket
  warnedNoTxn : Bool
  retErrNone : Bool
deriving Repr, DecidableEq

/-- The `CmdCommit` case of `ProcessCmd` (cmdprocessor.go lines 1002-1031).
`commitFails` is whether the backend `tx.Commit()` errors (with message
bytes `errText`); without an open transaction only a warning is logged.  On
`err == nil` the in-transaction flag clears and `eor(EORFree, RcOK)` is
emitted; otherwise `eor(EORInTransaction, RcSQLError errText)` and `err` is
reset to nil, so the branch never returns a non-nil error. -/
def processCommit (st : SessionSt) (commitFails : Bool) (errText : List Nat)
    (moreIncoming : Bool) : CommitOutcome :=
  if st.txPresent then
    if commitFails then
      { inTrans := st.inTrans, txPresent := true,
        emitted := eor moreIncoming st.rqId EORInTransaction
          (some (NewNetstringFrom RcSQLError errText)),
        warnedNoTxn := false, retErrNone := true }
    else
      { inTrans := false, txPresent := false,
        emitted := eor moreIncoming st.rqId EORFree (some (NewNetstringFrom RcOK [])),
        warnedNoTxn := false, retErrNone := true }
  else
    { inTrans := false, txPresent := st.txPresent,
      emitted := eor moreIncoming st.rqId EORFree (some (NewNetstringFrom RcOK [])),
      warnedNoTxn := true, retErrNone := true }

/-- A concrete session for exercising the bind and execute paths: a prepared
statement with the single declared input placeholder `:a` (bytes `[58, 97]`),
not yet supplied; the current bind name is `:m` (bytes `[58, 109]`), which
names no placeholder. -/
def exBindA : BindValue :=
  { index := 0, name := [58, 97], value := BindVal.vUnset,
    valid := false, btype := BindType.btIn, dataType := 0 }

def exSession : SessionSt :=
  { stmtPresent := true,
    bindVars := [([58, 97], exBindA)],
    bindPos := [[58, 97]], currentBindName := [58, 109], numBindOuts := 0,
    inTrans := false, txPresent := false, rqId := 0 }

/-! ## Lemmas about decimal digit strings -/

theorem natDigitsAux_congr : ∀ f g n : Nat, n < f → n < g →
    natDigitsAux f n = natDigitsAux g n := by
  intro f
  induction f using Nat.strong_induction_on with
  | _ f ih =>
    intro g n hf hg
    match f, g with
    | f' + 1, g' + 1 =>
      by_cases h10 : n < 10
      · simp [natDigitsAux, h10]
      · simp only [natDigitsAux, h10, if_false]
        have hn10 : n / 10 < n := Nat.div_lt_self (by omega) (by omega)
        rw [ih f' (by omega) g' (n / 10) (by omega) (by omega)]

theorem natToDigitBytes_lt (n : Nat) (h : n < 10) : natToDigitBytes n = [48 + n] := by
  simp [natToDigitBytes, natDigitsAux, h]

theorem natToDigitBytes_ge (n : Nat) (h : 10 ≤ n) :
    natToDigitBytes n = natToDigitBytes (n / 10) ++ [48 + n % 10] := by
  have hn10 : n / 10 < n := Nat.div_lt_self (by omega) (by omega)
  have hstep : natToDigitBytes n
      = if n < 10 then [48 + n] else natDigitsAux n (n / 10) ++ [48 + n % 10] := rfl
  rw [hstep, if_neg (by omega), natToDigitBytes,
    natDigitsAux_congr n (n / 10 + 1) (n / 10) (by omega) (by omega)]

theorem natToDigitBytes_ne_nil (n : Nat) : natToDigitBytes n ≠ [] := by
  by_cases h : n < 10
  · simp [natToDigitBytes_lt n h]
  · simp [natToDigitBytes_ge n (by omega)]

theorem natToDigitBytes_isDigit (n : Nat) :
    ∀ b ∈ natToDigitBytes n, 48 ≤ b ∧ b ≤ 57 := by
  induction n using Nat.strong_induction_on with
  | _ n ih =>
    by_cases h : n < 10
    · rw [natToDigitBytes_lt n h]
      intro b hb
      simp at hb
      omega
    · rw [natToDigitBytes_ge n (by omega)]
      intro b hb
      rw [List.mem_append] at hb
      rcases hb with hb | hb
      · exact ih (n / 10) (Nat.div_lt_self (by omega) (by omega)) b hb
      · have : b = 48 + n % 10 := by simpa using hb
        have := Nat.mod_lt n (show 0 < 10 by omega)
        omega

theorem digitsVal_append (acc : Nat) (ds es : List Nat) :
    digitsVal acc (ds ++ es) = digitsVal (digitsVal acc ds) es := by
  simp [digitsVal, List.foldl_append]

theorem digitsVal_natToDigitBytes (n : Nat) : ∀ acc : Nat,
    digitsVal acc (natToDigitBytes n) = acc * 10 ^ (natToDigitBytes n).length + n := by
  induction n using Nat.strong_induction_on with
  | _ n ih =>
    intro acc
    by_cases h : n < 10
    · rw [natToDigitBytes_lt n h]
      show acc * 10 + (48 + n - 48) = acc * 10 ^ 1 + n
      simp only [pow_one]
      omega
    · rw [natToDigitBytes_ge n (by omega)]
      rw [digitsVal_append]
      rw [ih (n / 10) (Nat.div_lt_self (by omega) (by omega)) acc]
      have hm : n % 10 < 10 := Nat.mod_lt n (by omega)
      have hdm : 10 * (n / 10) + n % 10 = n := Nat.div_add_mod n 10
      simp only [digitsVal, List.foldl_cons, List.foldl_nil, List.length_append,
        List.length_cons, List.length_nil, pow_succ]
      have h48 : 48 + n % 10 - 48 = n % 10 := by omega
      rw [h48]
      ring_nf
      omega

theorem digitsVal_natToDigitBytes_zero (n : Nat) :
    digitsVal 0 (natToDigitBytes n) = n := by
  rw [digitsVal_natToDigitBytes]
  simp

/-! ## Lemmas about the netstring codec -/

theorem readLen_digits : ∀ ds : List Nat, (∀ b ∈ ds, 48 ≤ b ∧ b ≤ 57) →
    ∀ (rest : List Nat) (acc : Nat) (buff : List Nat),
    readLen (ds ++ 58 :: rest) acc buff = .ok (digitsVal acc ds, buff ++ ds ++ [58], rest) := by
  intro ds
  induction ds with
  | nil =>
    intro _ rest acc buff
    simp [readLen, digitsVal]
  | cons b ds ih =>
    intro hds rest acc buff
    have hb := hds b (by simp)
    have hb58 : ¬ (b = 58) := by omega
    simp only [List.cons_append, readLen, if_neg hb58, if_pos hb, List.append_eq]
    rw [ih (fun x hx => hds x (by simp [hx])) rest (acc * 10 + (b - 48)) (buff ++ [b])]
    simp [digitsVal, List.append_assoc]

theorem readCmdLoop_digits : ∀ ds : List Nat, (∀ b ∈ ds, 48 ≤ b ∧ b ≤ 57) →
    ∀ (rest : List Nat) (acc : Nat),
    readCmdLoop (ds ++ rest) acc = readCmdLoop rest (digitsVal acc ds) := by
  intro ds
  induction ds with
  | nil =>
    intro _ rest acc
    simp [digitsVal]
  | cons b ds ih =>
    intro hds rest acc
    have hb := hds b (by simp)
    have hb32 : ¬ (b = 32) := by omega
    simp only [List.cons_append, readCmdLoop, if_neg hb32, if_pos hb, List.append_eq]
    rw [ih (fun x hx => hds x (by simp [hx])) rest (acc * 10 + (b - 48))]
    simp [digitsVal]

/-- `NewNetstring` on a stream with the correct indicator byte, unfolded. -/
theorem newNetstring_cons_one (s1 : List Nat) :
    NewNetstring (1 :: s1)
      = match readLen s1 0 [] with
        | .error e => (.error e, (1 :: s1).drop (min bufSize (1 :: s1).length))
        | .ok (length, buff, s2) =>
          if s2.length < length then (.error .eofErr, [])
          else
            match readCmdLoop (s2.take length) 0 with
            | .error e => (.error e, (1 :: s1).drop (min bufSize (1 :: s1).length))
            | .ok (cmd, payload) =>
              (.ok { Cmd := cmd,
                     Serialized := 1 :: buff ++ s2.take (min (length + 1) s2.length)
                       ++ (if s2.length = length then [0] else []),
                     Payload := payload, Sqid := 0, Length := 0, IsMySQL := false },
               (1 :: s1).drop (max (1 + buff.length + min (length + 1) s2.length)
                 (min bufSize (1 :: s1).length))) := rfl

theorem newNetstringFrom_serialized_pos (cmd : Nat) (payload : List Nat)
    (h : ¬ payload.length = 0) :
    (NewNetstringFrom cmd payload).Serialized
      = 1 :: (natToDigitBytes (payload.length + (natToDigitBytes cmd).length + 1)
          ++ 58 :: (natToDigitBytes cmd ++ 32 :: (payload ++ [44]))) := by
  simp only [NewNetstringFrom, if_neg h]
  simp [List.append_assoc]

theorem newNetstringFrom_serialized_nil (cmd : Nat) :
    (NewNetstringFrom cmd ([] : List Nat)).Serialized
      = 1 :: (natToDigitBytes (natToDigitBytes cmd).length
          ++ 58 :: (natToDigitBytes cmd ++ [44])) := by
  simp [NewNetstringFrom, List.append_assoc]

/-- Decoding the wire bytes produced by `NewNetstringFrom` recovers the
command and the payload (and nothing of the underlying stream remains). -/
theorem newNetstring_roundtrip (cmd : Nat) (payload : List Nat) :
    NewNetstring (NewNetstringFrom cmd payload).Serialized
      = (.ok { Cmd := cmd, Serialized := (NewNetstringFrom cmd payload).Serialized,
               Payload := payload, Sqid := 0, Length := 0, IsMySQL := false }, []) := by
  by_cases hp : payload.length = 0
  · have hpnil : payload = [] := List.eq_nil_of_length_eq_zero hp
    subst hpnil
    rw [newNetstringFrom_serialized_nil, newNetstring_cons_one]
    rw [readLen_digits _ (natToDigitBytes_isDigit _) _ 0 []]
    rw [digitsVal_natToDigitBytes_zero]
    have hlen : (natToDigitBytes cmd ++ [44]).length = (natToDigitBytes cmd).length + 1 := by
      simp
    simp only [hlen]
    rw [if_neg (by omega)]
    rw [List.take_left' rfl]
    have hcl : readCmdLoop (natToDigitBytes cmd) 0 = .ok (cmd, []) := by
      have := readCmdLoop_digits (natToDigitBytes cmd) (natToDigitBytes_isDigit _) [] 0
      rw [List.append_nil] at this
      rw [this, digitsVal_natToDigitBytes_zero]
      rfl
    rw [hcl]
    have htake : (natToDigitBytes cmd ++ [44]).take
        (min ((natToDigitBytes cmd).length + 1) ((natToDigitBytes cmd).length + 1))
        = natToDigitBytes cmd ++ [44] := by
      rw [min_self]
      exact List.take_of_length_le (by simp)
    rw [htake]
    rw [if_neg (by omega)]
    have hdrop : (1 :: (natToDigitBytes ((natToDigitBytes cmd).length)
        ++ 58 :: (natToDigitBytes cmd ++ [44]))).drop
        (max (1 + ([] ++ natToDigitBytes ((natToDigitBytes cmd).length) ++ [58]).length
          + min ((natToDigitBytes cmd).length + 1) ((natToDigitBytes cmd).length + 1))
          (min bufSize (1 :: (natToDigitBytes ((natToDigitBytes cmd).length)
            ++ 58 :: (natToDigitBytes cmd ++ [44]))).length)) = [] := by
      apply List.drop_eq_nil_of_le
      simp
      omega
    rw [hdrop]
    simp [NewNetstringFrom, List.append_assoc]
  · rw [newNetstringFrom_serialized_pos cmd payload hp, newNetstring_cons_one]
    rw [readLen_digits _ (natToDigitBytes_isDigit _) _ 0 []]
    rw [digitsVal_natToDigitBytes_zero]
    have hmid : natToDigitBytes cmd ++ 32 :: (payload ++ [44])
        = (natToDigitBytes cmd ++ 32 :: payload) ++ [44] := by
      simp [List.append_assoc]
    have hmidlen : (natToDigitBytes cmd ++ 32 :: payload).length
        = payload.length + (natToDigitBytes cmd).length + 1 := by
      simp
      omega
    have hlen : (natToDigitBytes cmd ++ 32 :: (payload ++ [44])).length
        = payload.length + (natToDigitBytes cmd).length + 1 + 1 := by
      simp
      omega
    simp only [hlen]
    rw [if_neg (by omega)]
    have htakeN : (natToDigitBytes cmd ++ 32 :: (payload ++ [44])).take
        (payload.length + (natToDigitBytes cmd).length + 1)
        = natToDigitBytes cmd ++ 32 :: payload := by
      rw [hmid]
      exact List.take_left' hmidlen
    rw [htakeN]
    have hcl : readCmdLoop (natToDigitBytes cmd ++ 32 :: payload) 0 = .ok (cmd, payload) := by
      rw [readCmdLoop_digits (natToDigitBytes cmd) (natToDigitBytes_isDigit _) _ 0]
      rw [digitsVal_natToDigitBytes_zero]
      simp [readCmdLoop]
    rw [hcl]
    have htake : (natToDigitBytes cmd ++ 32 :: (payload ++ [44])).take
        (min (payload.length + (natToDigitBytes cmd).length + 1 + 1)
          (payload.length + (natToDigitBytes cmd).length + 1 + 1))
        = natToDigitBytes cmd ++ 32 :: (payload ++ [44]) := by
      rw [min_self]
      apply List.take_of_length_le
      rw [hlen]
    rw [htake]
    rw [if_neg (by omega)]
    have hdrop : (1 :: (natToDigitBytes (payload.length + (natToDigitBytes cmd).length + 1)
        ++ 58 :: (natToDigitBytes cmd ++ 32 :: (payload ++ [44])))).drop
        (max (1 + ([] ++ natToDigitBytes (payload.length + (natToDigitBytes cmd).length + 1)
            ++ [58]).length
          + min (payload.length + (natToDigitBytes cmd).length + 1 + 1)
            (payload.length + (natToDigitBytes cmd).length + 1 + 1))
          (min bufSize (1 :: (natToDigitBytes (payload.length + (natToDigitBytes cmd).length + 1)
            ++ 58 :: (natToDigitBytes cmd ++ 32 :: (payload ++ [44])))).length)) = [] := by
      apply List.drop_eq_nil_of_le
      simp
      omega
    rw [hdrop]
    simp [List.append_assoc]

/-! ## Lemmas about the MySQL packet codec -/

theorem le3_val (n : Nat) (h : n < 2 ^ 24) :
    n % 256 + 256 * (n / 256 % 256) + 65536 * (n / 65536 % 256) = n := by
  omega

/-- `NewMySQLPacket` on a well-formed wire packet (indicator 0, 3-byte
little-endian length of the non-empty payload, one sequence-id byte, the
payload) followed by anything: it returns the packet and leaves exactly the
trailing bytes unread. -/
theorem newMySQLPacket_wellformed (sq : Nat) (P rest : List Nat)
    (hne : ¬ P.length = 0) (hlt : P.length < 2 ^ 24) :
    NewMySQLPacket (0 :: (le3 P.length ++ sq :: (P ++ rest)))
      = (.ok { Cmd := P.getD 0 0,
               Serialized := 0 :: (le3 P.length ++ sq :: P),
               Payload := P, Sqid := sq, Length := P.length, IsMySQL := true },
         rest) := by
  have hshape : le3 P.length ++ sq :: (P ++ rest)
      = P.length % 256 :: P.length / 256 % 256 :: P.length / 65536 % 256 :: sq :: (P ++ rest) := by
    simp [le3]
  rw [show NewMySQLPacket (0 :: (le3 P.length ++ sq :: (P ++ rest)))
      = (let s1 := le3 P.length ++ sq :: (P ++ rest)
         let tmp := s1.take 4 ++ List.replicate (4 - min 4 s1.length) 0
         let payload_length := tmp.getD 0 0 + 256 * tmp.getD 1 0 + 65536 * tmp.getD 2 0
         let sqid := tmp.getD 3 0
         let s2 := s1.drop 4
         if s2.length < payload_length then (.error .eofErr, [])
         else
           let serialized := 0 :: tmp ++ s2.take payload_length
           if payload_length = 0 then (.error .outOfRange, s2)
           else
             (.ok { Cmd := serialized.getD 5 0, Serialized := serialized,
                    Payload := s2.take payload_length, Sqid := sqid,
                    Length := payload_length, IsMySQL := true },
              s2.drop payload_length)) from rfl]
  simp only [hshape]
  have htmp : (P.length % 256 :: P.length / 256 % 256 :: P.length / 65536 % 256
        :: sq :: (P ++ rest)).take 4
      = [P.length % 256, P.length / 256 % 256, P.length / 65536 % 256, sq] := by
    simp [List.take_succ_cons]
  have hmin : min 4 (P.length % 256 :: P.length / 256 % 256 :: P.length / 65536 % 256
      :: sq :: (P ++ rest)).length = 4 := by
    simp
  simp only [htmp, hmin, Nat.sub_self, List.replicate_zero, List.append_nil,
    List.drop_succ_cons, List.drop_zero]
  have hgd0 : ([P.length % 256, P.length / 256 % 256, P.length / 65536 % 256, sq].getD 0 0)
      = P.length % 256 := rfl
  have hgd1 : ([P.length % 256, P.length / 256 % 256, P.length / 65536 % 256, sq].getD 1 0)
      = P.length / 256 % 256 := rfl
  have hgd2 : ([P.length % 256, P.length / 256 % 256, P.length / 65536 % 256, sq].getD 2 0)
      = P.length / 65536 % 256 := rfl
  have hgd3 : ([P.length % 256, P.length / 256 % 256, P.length / 65536 % 256, sq].getD 3 0)
      = sq := rfl
  simp only [hgd0, hgd1, hgd2, hgd3, le3_val P.length hlt]
  rw [if_neg (by simp)]
  rw [if_neg hne]
  have htakeP : (P ++ rest).take P.length = P := List.take_left' rfl
  have hdropP : (P ++ rest).drop P.length = rest := List.drop_left' rfl
  simp only [htakeP, hdropP]
  have hcmd : ((0 :: [P.length % 256, P.length / 256 % 256, P.length / 65536 % 256, sq] ++ P).getD
      5 0) = P.getD 0 0 := by
    simp [List.getD_append, List.getD]
  rw [hcmd]
  simp [le3, List.append_assoc]

/-- The splitting loop of `WritePacket`: every produced packet respects
`MAX_PACKET_SIZE`, the payloads concatenate back to the input, and the
sequence ids are consecutive from the starting id. -/
theorem writePacketAux_spec : ∀ (fuel sqid : Nat) (payload : List Nat),
    payload.length ≤ fuel →
    (∀ p ∈ writePacketAux fuel sqid payload, p.Payload.length ≤ MAX_PACKET_SIZE)
    ∧ ((writePacketAux fuel sqid payload).map (fun p => p.Payload)).flatten = payload
    ∧ (writePacketAux fuel sqid payload).map (fun p => p.Sqid)
        = List.range' sqid (writePacketAux fuel sqid payload).length := by
  intro fuel
  induction fuel with
  | zero =>
    intro sqid payload h
    have : payload = [] := List.eq_nil_of_length_eq_zero (by omega)
    subst this
    simp [writePacketAux]
  | succ f ih =>
    intro sqid payload h
    by_cases hp : payload.length = 0
    · have : payload = [] := List.eq_nil_of_length_eq_zero hp
      subst this
      simp [writePacketAux]
    · have hkpos : 1 ≤ min payload.length MAX_PACKET_SIZE := by
        have : 1 ≤ MAX_PACKET_SIZE := by decide
        omega
      have htl : (payload.take (min payload.length MAX_PACKET_SIZE)).length
          = min payload.length MAX_PACKET_SIZE := by
        simp
      have hne : ¬ (payload.take (min payload.length MAX_PACKET_SIZE)).length = 0 := by
        omega
      have hdl : (payload.drop (min payload.length MAX_PACKET_SIZE)).length
          = payload.length - min payload.length MAX_PACKET_SIZE := by
        simp
      obtain ⟨ihA, ihB, ihC⟩ := ih (sqid + 1) (payload.drop (min payload.length MAX_PACKET_SIZE))
        (by omega)
      have hunf : writePacketAux (f + 1) sqid payload
          = NewMySQLPacketFrom sqid (payload.take (min payload.length MAX_PACKET_SIZE))
            :: writePacketAux f (sqid + 1) (payload.drop (min payload.length MAX_PACKET_SIZE)) := by
        simp [writePacketAux, hp]
      have hpkt : NewMySQLPacketFrom sqid (payload.take (min payload.length MAX_PACKET_SIZE))
          = { Cmd := (payload.take (min payload.length MAX_PACKET_SIZE)).getD 0 0,
              Serialized := 0 :: le3 (payload.take (min payload.length MAX_PACKET_SIZE)).length
                ++ [sqid % 256] ++ payload.take (min payload.length MAX_PACKET_SIZE),
              Payload := payload.take (min payload.length MAX_PACKET_SIZE), Sqid := sqid,
              Length := (payload.take (min payload.length MAX_PACKET_SIZE)).length,
              IsMySQL := true } := by
        simp [NewMySQLPacketFrom, hne]
        exact ⟨fun hc => hp (by simp [hc]), by decide⟩
      refine ⟨?_, ?_, ?_⟩
      · intro p hpmem
        rw [hunf] at hpmem
        rcases List.mem_cons.mp hpmem with hhd | htlm
        · subst hhd
          rw [hpkt]
          simp [htl]
        · exact ihA p htlm
      · rw [hunf]
        simp only [List.map_cons, List.flatten_cons, ihB, hpkt]
        exact List.take_append_drop _ payload
      · rw [hunf]
        simp only [List.map_cons, List.length_cons, ihC, hpkt]
        rw [List.range'_succ]

/-- A MySQL wire packet whose 3-byte length field is zero (as the encoder
produces for any payload of `k * 2^24` bytes, and as an empty or missing
header yields): the decoder reads no payload and then panics indexing
`Serialized[5]`. -/
theorem newMySQLPacket_zero_header (sq : Nat) (X : List Nat) :
    NewMySQLPacket (0 :: 0 :: 0 :: 0 :: sq :: X) = (.error .outOfRange, X) := by
  rw [show NewMySQLPacket (0 :: 0 :: 0 :: 0 :: sq :: X)
      = (let s1 : List Nat := 0 :: 0 :: 0 :: sq :: X
         let tmp := s1.take 4 ++ List.replicate (4 - min 4 s1.length) 0
         let payload_length := tmp.getD 0 0 + 256 * tmp.getD 1 0 + 65536 * tmp.getD 2 0
         let sqid := tmp.getD 3 0
         let s2 := s1.drop 4
         if s2.length < payload_length then (.error .eofErr, [])
         else
           let serialized := 0 :: tmp ++ s2.take payload_length
           if payload_length = 0 then (.error .outOfRange, s2)
           else
             (.ok { Cmd := serialized.getD 5 0, Serialized := serialized,
                    Payload := s2.take payload_length, Sqid := sqid,
                    Length := payload_length, IsMySQL := true },
              s2.drop payload_length)) from rfl]
  simp [List.take_succ_cons]

/-- `Packager.ReadNext` on a stream whose next packet decodes successfully:
the packet is returned and its sequence id becomes the packager's. -/
theorem packagerReadNext_ok (s rest : List Nat) (q : Nat) (pkt : EPacket)
    (h : NewMySQLPacket s = (.ok pkt, rest)) :
    PackagerReadNext (s, q) = (.ok pkt, (rest, pkt.Sqid)) := by
  unfold PackagerReadNext
  rw [h]

/-- After a successful `NewMySQLPacket` decode, `Length` equals the length
of `Payload`. -/
theorem newMySQLPacket_ok_length (s : List Nat) (p : EPacket) (rs : List Nat)
    (hm : NewMySQLPacket s = (.ok p, rs)) : p.Length = p.Payload.length := by
  cases s with
  | nil => simp [NewMySQLPacket] at hm
  | cons ptype s1 =>
    by_cases hpt : ptype = 0
    · subst hpt
      simp only [NewMySQLPacket] at hm
      rw [if_neg (by simp)] at hm
      split at hm
      · simp at hm
      · split at hm
        · simp at hm
        · rename_i hlen hzero
          simp only [Prod.mk.injEq, Except.ok.injEq] at hm
          obtain ⟨hp, -⟩ := hm
          subst hp
          simp only [List.length_take]
          omega
    · simp only [NewMySQLPacket, if_pos hpt] at hm
      split at hm <;> simp at hm

/-- After a successful `NewNetstring` decode, `Length` is still 0: the
netstring decoder never assigns it. -/
theorem newNetstring_ok_length_zero (t : List Nat) (q : EPacket) (rt : List Nat)
    (hn : NewNetstring t = (.ok q, rt)) : q.Length = 0 := by
  cases t with
  | nil => simp [NewNetstring] at hn
  | cons ttp t1 =>
    by_cases htp : ttp = 1
    · subst htp
      rw [newNetstring_cons_one] at hn
      rcases hres : readLen t1 0 [] with e | trip
      · rw [hres] at hn
        simp at hn
      · obtain ⟨length, buff, s2⟩ := trip
        rw [hres] at hn
        simp only at hn
        split at hn
        · simp at hn
        · rcases hcmd : readCmdLoop (s2.take length) 0 with e | pr
          · rw [hcmd] at hn
            simp at hn
          · obtain ⟨cmd, payload⟩ := pr
            rw [hcmd] at hn
            simp only [Prod.mk.injEq, Except.ok.injEq] at hn
            obtain ⟨hq, -⟩ := hn
            subst hq
            rfl
    · have hne : ttp ≠ 1 := htp
      simp only [NewNetstring, if_pos hne] at hn
      split at hn <;> simp at hn

/-! ## Lemmas about the command processor -/

/-- If the bind table has an entry for every name of the ordered placeholder
list and some input slot is not supplied, the `CmdExecute` placeholder walk
sets an error and breaks before any backend call. -/
theorem execWalk_unsupplied_failed (ubn : Bool) (bv : List (List Nat × BindValue)) :
    ∀ (bp : List (List Nat)) (acc : List BindArg) (cb : Nat),
    (∀ k ∈ bp, (lookupBV bv k).isSome = true) →
    (∃ k ∈ bp, ∃ v, lookupBV bv k = some v ∧ v.btype = BindType.btIn ∧ v.valid = false) →
    ∃ e, execWalk ubn bv bp acc cb = .failed e := by
  intro bp
  induction bp with
  | nil =>
    intro acc cb _ hbad
    simp at hbad
  | cons key rest ih =>
    intro acc cb hwf hbad
    obtain ⟨val, hval⟩ := Option.isSome_iff_exists.mp (hwf key (by simp))
    have hwfr : ∀ k ∈ rest, (lookupBV bv k).isSome = true :=
      fun k hk => hwf k (by simp [hk])
    have hbadr : val.btype = BindType.btIn → val.valid = true →
        ∃ k ∈ rest, ∃ v, lookupBV bv k = some v
          ∧ v.btype = BindType.btIn ∧ v.valid = false := by
      intro _ hvv
      rcases hbad with ⟨k, hk, v, hlv, hb, hvd⟩
      rcases List.mem_cons.mp hk with rfl | hkr
      · rw [hval] at hlv
        cases hlv
        rw [hvv] at hvd
        cases hvd
      · exact ⟨k, hkr, v, hlv, hb, hvd⟩
    have hbadr' : val.btype ≠ BindType.btIn →
        ∃ k ∈ rest, ∃ v, lookupBV bv k = some v
          ∧ v.btype = BindType.btIn ∧ v.valid = false := by
      intro hnin
      rcases hbad with ⟨k, hk, v, hlv, hb, hvd⟩
      rcases List.mem_cons.mp hk with rfl | hkr
      · rw [hval] at hlv
        cases hlv
        exact absurd hb hnin
      · exact ⟨k, hkr, v, hlv, hb, hvd⟩
    by_cases hin : val.btype = BindType.btIn
    · by_cases hv : val.valid = true
      · have hstep : execWalk ubn bv (key :: rest) acc cb
            = execWalk ubn bv rest
                (acc ++ [if ubn then BindArg.named (key.drop 1) val.value
                         else BindArg.positional val.value]) cb := by
          simp [execWalk, hval, hin, hv]
        rw [hstep]
        exact ih _ _ hwfr (hbadr hin hv)
      · refine ⟨.bindNameUndefined key, ?_⟩
        simp [execWalk, hval, hin, Bool.eq_false_iff.mpr hv]
    · by_cases hout : val.btype = BindType.btOut
      · by_cases hubn : ubn = true
        · have hstep : execWalk ubn bv (key :: rest) acc cb
              = execWalk ubn bv rest (acc ++ [BindArg.outArg (key.drop 1) cb]) (cb + 1) := by
            simp [execWalk, hval, hin, hout, hubn]
          rw [hstep]
          exact ih _ _ hwfr (hbadr' hin)
        · refine ⟨.outbindNotSupported, ?_⟩
          simp [execWalk, hval, hin, hout, hubn]
      · have hstep : execWalk ubn bv (key :: rest) acc cb
            = execWalk ubn bv rest acc cb := by
          simp [execWalk, hval, hin, hout]
        rw [hstep]
        exact ih _ _ hwfr (hbadr' hin)

/-! ## Claims -/

/-- C1: on a stream that begins with the MySQL indicator byte 0 (here the
6-byte stream carrying the MySQL packet `{1,0,0,0,99}` behind its
indicator), `NewNetstring` does fail with `WRONGPACKET` — but its discarded
`bufio.Reader` has already drained the whole stream from the underlying
reader, so retrying with `NewMySQLPacket` at the resulting stream position
hits an empty stream instead of decoding the packet byte-for-byte, while
decoding at the original position would have succeeded.  (The opposite
direction behaves as claimed: `NewMySQLPacket` on a netstring stream
consumes exactly the indicator byte, leaving the rest for a retry.) -/
theorem claim_C1_wrong_indicator_consumption :
    (NewNetstring [0, 1, 0, 0, 0, 99]).1 = .error .WRONGPACKET
    ∧ (NewNetstring [0, 1, 0, 0, 0, 99]).2 = []
    ∧ (NewMySQLPacket ((NewNetstring [0, 1, 0, 0, 0, 99]).2)).1 = .error .outOfRange
    ∧ ((NewMySQLPacket [0, 1, 0, 0, 0, 99]).1.map (fun p => (p.Cmd, p.Payload)))
        = .ok (99, [99])
    ∧ (NewMySQLPacket [1, 53, 58, 53, 48, 50, 32, 48, 44]).1 = .error .WRONGPACKET
    ∧ (NewMySQLPacket [1, 53, 58, 53, 48, 50, 32, 48, 44]).2
        = [53, 58, 53, 48, 50, 32, 48, 44] := by
  decide

/-- C4: embedding two netstrings with `NewNetstringEmbedded` and parsing the
composite back with `SubNetstrings` loses the second one: only the first
sub-netstring is returned (each `NewNetstring` call's `bufio.Reader` drains
and discards the shared `bytes.Reader`), so re-serializing the flattened
list does not reproduce the embedded bytes. -/
theorem claim_C4_subnetstrings_loses_packets :
    SubNetstrings (NewNetstringEmbedded
        [NewNetstringFrom 502 [97, 98, 99], NewNetstringFrom 5 []])
      = .ok [NewNetstringFrom 502 [97, 98, 99]]
    ∧ ((SubNetstrings (NewNetstringEmbedded
        [NewNetstringFrom 502 [97, 98, 99], NewNetstringFrom 5 []])).map
          (fun l => (l.map (fun p => p.Serialized)).flatten))
        ≠ .ok (NewNetstringEmbedded
            [NewNetstringFrom 502 [97, 98, 99], NewNetstringFrom 5 []]).Payload := by
  decide

/-- C6: on a stream holding a composite netstring that embeds two
sub-netstrings, the first `Reader.ReadNext` serves the first sub-netstring,
but the second call reports end-of-stream instead of the second
sub-netstring: `SubNetstrings` buffered only the first one and the
underlying stream was fully drained by the first decode. -/
theorem claim_C6_reader_drops_buffered_subnetstrings :
    ((nsReadNext 100 (NewNetstringReader (NewNetstringEmbedded
        [NewNetstringFrom 502 [97, 98, 99], NewNetstringFrom 5 []]).Serialized)).1.map
          (fun p => (p.Cmd, p.Payload)))
      = .ok (502, [97, 98, 99])
    ∧ (nsReadNext 100 ((nsReadNext 100 (NewNetstringReader (NewNetstringEmbedded
        [NewNetstringFrom 502 [97, 98, 99], NewNetstringFrom 5 []]).Serialized)).2)).1
      = .error .eofErr := by
  decide

/-- C9 (amended): processing Commit with no open transaction logs the
"Commit issued without a transaction" warning (not an error), is not fatal
(`ProcessCmd` returns nil from this branch), leaves the session with
`inTrans = false` and no transaction handle, and emits the `RcOK` success
framing with end-of-response code `EORFree` — except that when more
pipelined requests are already buffered, `eor` upgrades the code to
`EORMoreIncomingRequests`. -/
theorem claim_C9_commit_without_transaction (sp : Bool) (bv : List (List Nat × BindValue))
    (bp : List (List Nat)) (cbn : List Nat) (nbo : Nat) (it cf : Bool) (et : List Nat)
    (mi : Bool) (rq : Nat) :
    processCommit { stmtPresent := sp, bindVars := bv, bindPos := bp, currentBindName := cbn,
                    numBindOuts := nbo, inTrans := it, txPresent := false, rqId := rq } cf et mi
      = { inTrans := false, txPresent := false,
          emitted := NewNetstringFrom CmdEOR
            (eorPayload (if mi then EORMoreIncomingRequests else EORFree) rq
              (some (NewNetstringFrom RcOK []))),
          warnedNoTxn := true, retErrNone := true } := by
  cases mi <;> simp [processCommit, eor, EORFree, EORMoreIncomingRequests]

/-- C9 counterexample: with a pipelined request already buffered
(`moreIncomingRequests()` true), Commit without a transaction emits the EOR
code `EORMoreIncomingRequests` (4) instead of `EORFree` (0), so the response
framing is not the claimed one. -/
theorem claim_C9_counterexample :
    (processCommit { stmtPresent := false, bindVars := [], bindPos := [], currentBindName := [],
                     numBindOuts := 0, inTrans := false, txPresent := false, rqId := 0 }
        false [] true).emitted
      ≠ NewNetstringFrom CmdEOR (eorPayload EORFree 0 (some (NewNetstringFrom RcOK []))) := by
  decide

/-- C2 (amended): decoding the wire bytes of `NewNetstringFrom C P` yields
back command `C` and payload `P` for every command and payload; decoding the
wire bytes of `NewMySQLPacketFrom sqid P` yields back command `P[0]` and
payload `P` for every non-empty `P` of fewer than `2^24` bytes (the 3-byte
length field caps the representable payload length). -/
theorem claim_C2_roundtrip (C sqid : Nat) (P Q : List Nat)
    (hne : ¬ Q.length = 0) (hlt : Q.length < 2 ^ 24) :
    ((NewNetstring (NewNetstringFrom C P).Serialized).1.map (fun p => (p.Cmd, p.Payload)))
      = .ok (C, P)
    ∧ ((NewMySQLPacket (NewMySQLPacketFrom sqid Q).Serialized).1.map
          (fun p => (p.Cmd, p.Payload)))
      = .ok (Q.getD 0 0, Q) := by
  constructor
  · rw [newNetstring_roundtrip]
    rfl
  · have hser : (NewMySQLPacketFrom sqid Q).Serialized
        = 0 :: (le3 Q.length ++ (sqid % 256) :: (Q ++ [])) := by
      simp [NewMySQLPacketFrom, hne, List.append_assoc]
    rw [hser, newMySQLPacket_wellformed (sqid % 256) Q [] hne hlt]
    rfl

/-- Witness for C2: command 502 with payload `"0"`, and the 1-byte MySQL
payload `[1]` at sequence id 0. -/
theorem claim_C2_roundtrip_witness :
    (¬ ([1] : List Nat).length = 0) ∧ ([1] : List Nat).length < 2 ^ 24
    ∧ (((NewNetstring (NewNetstringFrom 502 [48]).Serialized).1.map
          (fun p => (p.Cmd, p.Payload))) = .ok (502, [48])
       ∧ ((NewMySQLPacket (NewMySQLPacketFrom 0 [1]).Serialized).1.map
            (fun p => (p.Cmd, p.Payload))) = .ok (([1] : List Nat).getD 0 0, [1])) :=
  ⟨by decide, by decide, claim_C2_roundtrip 502 0 [48] [1] (by decide) (by decide)⟩

/-- C2 counterexample: for the non-empty payload of `2^24` one-bytes the
encoder's 3-byte length field wraps to zero, and decoding its wire bytes
fails (a Go panic indexing `Serialized[5]`) instead of returning a packet
with the original command and payload. -/
theorem claim_C2_counterexample :
    (List.replicate (2 ^ 24) 1 : List Nat) ≠ []
    ∧ (NewMySQLPacket (NewMySQLPacketFrom 0 (List.replicate (2 ^ 24) 1)).Serialized).1
        = .error .outOfRange := by
  constructor
  · intro hc
    have hlen := congrArg List.length hc
    rw [List.length_replicate] at hlen
    exact absurd hlen (by decide)
  · have hser : (NewMySQLPacketFrom 0 (List.replicate (2 ^ 24) (1 : Nat))).Serialized
        = 0 :: 0 :: 0 :: 0 :: 0 :: List.replicate (2 ^ 24) 1 := by
      have hl : (List.replicate (2 ^ 24) (1 : Nat)).length = 2 ^ 24 :=
        List.length_replicate _ _
      have hnz : ¬ (List.replicate (2 ^ 24) (1 : Nat)).length = 0 := by
        rw [hl]
        decide
      simp only [NewMySQLPacketFrom, if_neg hnz, hl]
      norm_num [le3]
    rw [hser, newMySQLPacket_zero_header]

/-- C3 (amended): on a stream carrying a MySQL packet of declared payload
length exactly 16,777,215 followed by a terminal packet of length
`L < 16,777,215`, `Packager.ReadNext` does *not* reassemble: it yields the
first wire packet alone — its payload is exactly the 16,777,215-byte
fragment, and `Packet.IsComposite` flags it as a continuation — and a
second `ReadNext` yields the terminal packet, so no concatenated logical
message of length `16,777,215 + L` is ever produced by `ReadNext`. -/
theorem claim_C3_readnext_returns_single_packet (P Q : List Nat) (sq sq2 sqid0 : Nat)
    (hP : P.length = MAX_PACKET_SIZE) (hQne : ¬ Q.length = 0)
    (hQlt : Q.length < MAX_PACKET_SIZE) :
    PackagerReadNext ((0 :: (le3 P.length ++ sq :: (P ++ (0 :: (le3 Q.length ++ sq2 :: Q))))),
        sqid0)
      = (.ok { Cmd := P.getD 0 0, Serialized := 0 :: (le3 P.length ++ sq :: P), Payload := P,
               Sqid := sq, Length := P.length, IsMySQL := true },
         ((0 :: (le3 Q.length ++ sq2 :: Q)), sq))
    ∧ IsComposite { Cmd := P.getD 0 0, Serialized := 0 :: (le3 P.length ++ sq :: P),
                    Payload := P, Sqid := sq, Length := P.length, IsMySQL := true } = true
    ∧ PackagerReadNext ((0 :: (le3 Q.length ++ sq2 :: Q)), sq)
        = (.ok { Cmd := Q.getD 0 0, Serialized := 0 :: (le3 Q.length ++ sq2 :: Q), Payload := Q,
                 Sqid := sq2, Length := Q.length, IsMySQL := true },
           ([], sq2)) := by
  have hPne : ¬ P.length = 0 := by
    rw [hP]
    decide
  have hPlt : P.length < 2 ^ 24 := by
    rw [hP]
    decide
  have hQlt' : Q.length < 2 ^ 24 := by
    have hmax : MAX_PACKET_SIZE < 2 ^ 24 := by decide
    omega
  have h1 := newMySQLPacket_wellformed sq P (0 :: (le3 Q.length ++ sq2 :: Q)) hPne hPlt
  have h2 := newMySQLPacket_wellformed sq2 Q [] hQne hQlt'
  rw [List.append_nil] at h2
  refine ⟨?_, ?_, ?_⟩
  · simp [PackagerReadNext, h1]
  · simp [IsComposite, hP]
  · simp [PackagerReadNext, h2]

/-- Witness for C3: the 16,777,215-byte fragment of `97`-bytes followed by
the terminal 1-byte packet `[7]`. -/
theorem claim_C3_readnext_returns_single_packet_witness :
    ((List.replicate MAX_PACKET_SIZE 97 : List Nat).length = MAX_PACKET_SIZE)
    ∧ (¬ ([7] : List Nat).length = 0) ∧ (([7] : List Nat).length < MAX_PACKET_SIZE)
    ∧ (PackagerReadNext ((0 :: (le3 (List.replicate MAX_PACKET_SIZE (97 : Nat)).length
          ++ 0 :: (List.replicate MAX_PACKET_SIZE 97
            ++ (0 :: (le3 ([7] : List Nat).length ++ 0 :: [7]))))), 0)
        = (.ok { Cmd := (List.replicate MAX_PACKET_SIZE (97 : Nat)).getD 0 0,
                 Serialized := 0 :: (le3 (List.replicate MAX_PACKET_SIZE (97 : Nat)).length
                   ++ 0 :: List.replicate MAX_PACKET_SIZE 97),
                 Payload := List.replicate MAX_PACKET_SIZE 97,
                 Sqid := 0, Length := (List.replicate MAX_PACKET_SIZE (97 : Nat)).length,
                 IsMySQL := true },
           ((0 :: (le3 ([7] : List Nat).length ++ 0 :: [7])), 0))
      ∧ IsComposite { Cmd := (List.replicate MAX_PACKET_SIZE (97 : Nat)).getD 0 0,
                      Serialized := 0 :: (le3 (List.replicate MAX_PACKET_SIZE (97 : Nat)).length
                        ++ 0 :: List.replicate MAX_PACKET_SIZE 97),
                      Payload := List.replicate MAX_PACKET_SIZE 97,
                      Sqid := 0, Length := (List.replicate MAX_PACKET_SIZE (97 : Nat)).length,
                      IsMySQL := true } = true
      ∧ PackagerReadNext ((0 :: (le3 ([7] : List Nat).length ++ 0 :: [7])), 0)
          = (.ok { Cmd := ([7] : List Nat).getD 0 0,
                   Serialized := 0 :: (le3 ([7] : List Nat).length ++ 0 :: [7]),
                   Payload := [7], Sqid := 0, Length := ([7] : List Nat).length,
                   IsMySQL := true },
             ([], 0))) :=
  ⟨List.length_replicate _ _, by decide, by decide,
   claim_C3_readnext_returns_single_packet (List.replicate MAX_PACKET_SIZE 97) [7] 0 0 0
     (List.length_replicate _ _) (by decide) (by decide)⟩

/-- C3 counterexample: for the stream holding the maximal packet (payload of
16,777,215 `97`-bytes) followed by the terminal packet `[7]` (`L = 1`), the
packet yielded by `Packager.ReadNext` has payload length 16,777,215, not the
claimed concatenated total `16,777,215 + 1`. -/
theorem claim_C3_counterexample :
    ((PackagerReadNext ((0 :: (le3 MAX_PACKET_SIZE ++ 0 :: (List.replicate MAX_PACKET_SIZE 97
          ++ (0 :: (le3 1 ++ 0 :: [7]))))), 0)).1.map (fun p => p.Payload.length))
      = .ok MAX_PACKET_SIZE
    ∧ MAX_PACKET_SIZE ≠ MAX_PACKET_SIZE + 1 := by
  constructor
  · have hne : ¬ (List.replicate MAX_PACKET_SIZE (97 : Nat)).length = 0 := by
      rw [List.length_replicate]
      decide
    have hlt : (List.replicate MAX_PACKET_SIZE (97 : Nat)).length < 2 ^ 24 := by
      rw [List.length_replicate]
      decide
    have h1 := newMySQLPacket_wellformed 0 (List.replicate MAX_PACKET_SIZE 97)
      (0 :: (le3 1 ++ 0 :: [7])) hne hlt
    rw [List.length_replicate] at h1
    rw [packagerReadNext_ok _ _ 0 _ h1]
    show Except.ok ((List.replicate MAX_PACKET_SIZE (97 : Nat)).length)
        = Except.ok MAX_PACKET_SIZE
    rw [List.length_replicate]
  · decide

/-- C5 (amended): after a successful decode the MySQL decoder's packet
satisfies `Length = len(Payload)`, but the netstring decoder never assigns
`Length`, which stays 0 whatever the payload: the claimed invariant holds
for netstring packets only when the payload is empty. -/
theorem claim_C5_length_invariant (s t : List Nat) (p q : EPacket) (rs rt : List Nat)
    (hm : NewMySQLPacket s = (.ok p, rs)) (hn : NewNetstring t = (.ok q, rt)) :
    p.Length = p.Payload.length ∧ q.Length = 0 :=
  ⟨newMySQLPacket_ok_length s p rs hm, newNetstring_ok_length_zero t q rt hn⟩

/-- Witness for C5: the MySQL packet `{1,0,0,0,7}` and the netstring
`"5:502 0,"` (both behind their indicator bytes). -/
theorem claim_C5_length_invariant_witness :
    (NewMySQLPacket [0, 1, 0, 0, 0, 7]
        = (.ok { Cmd := 7, Serialized := [0, 1, 0, 0, 0, 7], Payload := [7], Sqid := 0,
                 Length := 1, IsMySQL := true }, []))
    ∧ (NewNetstring [1, 53, 58, 53, 48, 50, 32, 48, 44]
        = (.ok { Cmd := 502, Serialized := [1, 53, 58, 53, 48, 50, 32, 48, 44],
                 Payload := [48], Sqid := 0, Length := 0, IsMySQL := false }, []))
    ∧ ((1 : Nat) = ([7] : List Nat).length ∧ (0 : Nat) = 0) :=
  ⟨by decide, by decide,
   claim_C5_length_invariant [0, 1, 0, 0, 0, 7] [1, 53, 58, 53, 48, 50, 32, 48, 44]
     { Cmd := 7, Serialized := [0, 1, 0, 0, 0, 7], Payload := [7], Sqid := 0,
       Length := 1, IsMySQL := true }
     { Cmd := 502, Serialized := [1, 53, 58, 53, 48, 50, 32, 48, 44],
       Payload := [48], Sqid := 0, Length := 0, IsMySQL := false }
     [] [] (by decide) (by decide)⟩

/-- C5 counterexample: the netstring `"5:502 0,"` decodes successfully to a
packet with a 1-byte payload but `Length = 0`, violating
`length = len(payload)` as stated. -/
theorem claim_C5_counterexample :
    ((NewNetstring [1, 53, 58, 53, 48, 50, 32, 48, 44]).1.map
        (fun p => (p.Length, p.Payload.length)))
      = .ok (0, 1)
    ∧ (0 : Nat) ≠ 1 := by
  decide

/-- C7: on Execute with a prepared statement present and a bind table that
covers the ordered placeholder list, if any input slot's supplied flag is
false then the single walk over the ordered list sets an error and breaks
out, so the backend statement is never invoked. -/
theorem claim_C7_execute_requires_supplied (st : SessionSt) (ubn : Bool)
    (hs : st.stmtPresent = true)
    (hwf : ∀ k ∈ st.bindPos, (lookupBV st.bindVars k).isSome = true)
    (hbad : ∃ k ∈ st.bindPos, ∃ v, lookupBV st.bindVars k = some v
      ∧ v.btype = BindType.btIn ∧ v.valid = false) :
    (∃ e, processExecute st ubn = .failed e)
    ∧ ∀ args, processExecute st ubn ≠ .backendCall args := by
  have hw : processExecute st ubn = execWalk ubn st.bindVars st.bindPos [] 0 := by
    simp [processExecute, hs]
  obtain ⟨e, he⟩ := execWalk_unsupplied_failed ubn st.bindVars st.bindPos [] 0 hwf hbad
  refine ⟨⟨e, by rw [hw, he]⟩, ?_⟩
  intro args hc
  rw [hw, he] at hc
  simp at hc

/-- Witness for C7: the session with the one declared, unsupplied input
placeholder `:a`. -/
theorem claim_C7_execute_requires_supplied_witness :
    exSession.stmtPresent = true
    ∧ (∀ k ∈ exSession.bindPos, (lookupBV exSession.bindVars k).isSome = true)
    ∧ (∃ k ∈ exSession.bindPos, ∃ v, lookupBV exSession.bindVars k = some v
        ∧ v.btype = BindType.btIn ∧ v.valid = false)
    ∧ ((∃ e, processExecute exSession false = .failed e)
       ∧ ∀ args, processExecute exSession false ≠ .backendCall args) :=
  ⟨by decide, by decide,
   ⟨[58, 97], by decide, exBindA, by decide, rfl, rfl⟩,
   claim_C7_execute_requires_supplied exSession false (by decide) (by decide)
     ⟨[58, 97], by decide, exBindA, by decide, rfl, rfl⟩⟩

/-- C8: a bind command naming a placeholder absent from the prepared
statement's placeholder list returns the recoverable "bindname not found"
error and leaves every existing bind slot untouched: `CmdBindName` and
`CmdBindOutName` fail when the derived name is not in the table,
`CmdBindValue` fails when the current bind name is not in the table, and in
all three cases `bindVars` comes back unchanged. -/
theorem claim_C8_bind_unknown_name (st : SessionSt) (payload : List Nat)
    (hs : st.stmtPresent = true)
    (h1 : lookupBV st.bindVars (deriveBindName payload) = none)
    (h2 : lookupBV st.bindVars st.currentBindName = none) :
    (processBindName st payload false).2 = some (.bindNameNotFound (deriveBindName payload))
    ∧ (processBindName st payload false).1.bindVars = st.bindVars
    ∧ (processBindName st payload true).2 = some (.bindNameNotFound (deriveBindName payload))
    ∧ (processBindName st payload true).1.bindVars = st.bindVars
    ∧ (processBindValue st payload).2 = some (.bindNameNotFound st.currentBindName)
    ∧ (processBindValue st payload).1.bindVars = st.bindVars := by
  simp [processBindName, processBindValue, hs, h1, h2]

/-- Witness for C8: binding the undeclared name `b` (derived `:b`) in the
session whose only placeholder is `:a` and whose current bind name `:m`
names no placeholder. -/
theorem claim_C8_bind_unknown_name_witness :
    exSession.stmtPresent = true
    ∧ lookupBV exSession.bindVars (deriveBindName [98]) = none
    ∧ lookupBV exSession.bindVars exSession.currentBindName = none
    ∧ ((processBindName exSession [98] false).2
          = some (.bindNameNotFound (deriveBindName [98]))
       ∧ (processBindName exSession [98] false).1.bindVars = exSession.bindVars
       ∧ (processBindName exSession [98] true).2
           = some (.bindNameNotFound (deriveBindName [98]))
       ∧ (processBindName exSession [98] true).1.bindVars = exSession.bindVars
       ∧ (processBindValue exSession [98]).2
           = some (.bindNameNotFound exSession.currentBindName)
       ∧ (processBindValue exSession [98]).1.bindVars = exSession.bindVars) :=
  ⟨by decide, by decide, by decide,
   claim_C8_bind_unknown_name exSession [98] (by decide) (by decide) (by decide)⟩

/-- C10: for every non-empty payload, `Packager.WritePacket` splits it into
packets each carrying at most `MAX_PACKET_SIZE` payload bytes, whose
payloads concatenate in order to exactly the input payload, and whose
sequence ids increase by one from the packager's current id. -/
theorem claim_C10_writepacket_split (sqid : Nat) (payload : List Nat)
    (hne : payload ≠ []) :
    (∀ p ∈ WritePacket sqid payload, p.Payload.length ≤ MAX_PACKET_SIZE)
    ∧ ((WritePacket sqid payload).map (fun p => p.Payload)).flatten = payload
    ∧ (WritePacket sqid payload).map (fun p => p.Sqid)
        = List.range' sqid (WritePacket sqid payload).length := by
  have _ := hne
  exact writePacketAux_spec payload.length sqid payload (le_refl _)

/-- Witness for C10: the payload `[1, 2, 3]` starting at sequence id 0. -/
theorem claim_C10_writepacket_split_witness :
    (([1, 2, 3] : List Nat) ≠ [])
    ∧ ((∀ p ∈ WritePacket 0 [1, 2, 3], p.Payload.length ≤ MAX_PACKET_SIZE)
       ∧ ((WritePacket 0 [1, 2, 3]).map (fun p => p.Payload)).flatten = [1, 2, 3]
       ∧ (WritePacket 0 [1, 2, 3]).map (fun p => p.Sqid)
           = List.range' 0 (WritePacket 0 [1, 2, 3]).length) :=
  ⟨by decide, claim_C10_writepacket_split 0 [1, 2, 3] (by decide)⟩

end Hera
